import Mathlib

/-!
Shallow embedding of `src/parser/parse_new.ts` of the regex-vis repository:
a recursive-descent parser that turns a slash-delimited regex literal into a
typed syntax tree.  Every definition mirrors the corresponding TypeScript
function; line numbers in the doc comments refer to `parse_new.ts`.
-/

namespace RegexVis

/-- Modelled from the spec: the `Flag` names of §3 (the `ast.ts` module the
source imports is not under `src/`); each corresponds 1:1 to a source letter
via `flagDict` (parse_new.ts lines 4-12). -/
inductive FlagKind
  | hasIndices
  | global
  | ignoreCase
  | multiline
  | dotAll
  | unicode
  | sticky
deriving DecidableEq, Repr

/-- Quantifier upper bound: a finite count or `Infinity` (JS number). -/
inductive QuantMax
  | fin (n : Nat)
  | inf
deriving DecidableEq, Repr

/-- Quantifier kind strings used by the source: `"?"`, `"*"`, `"+"`, `"custom"`. -/
inductive QuantKind
  | question
  | star
  | plus
  | custom
deriving DecidableEq, Repr

/-- Modelled from the spec: `Quantifier` of §3 (`ast.ts` is not under `src/`);
the concrete values are exactly the ones `consumeQuantifier`
(parse_new.ts lines 104-181) constructs. -/
structure Quantifier where
  kind : QuantKind
  min : Nat
  max : QuantMax
  greedy : Bool
deriving DecidableEq, Repr

/-- The `kind`/`name` part of a group node, as built by `onGroup`
(parse_new.ts lines 244-257): `capturing` carries the stringified capture
counter, `namedCapturing` the name captured from `?<name>`. -/
inductive GroupKind
  | capturing (name : String)
  | nonCapturing
  | namedCapturing (name : String)
deriving DecidableEq, Repr

/-- Modelled from the spec: the `Node` variants of §3 (`ast.ts` is not under
`src/`): Character (an opaque leaf here), Group (unique id, kind, children,
optional quantifier), Choice (branches) and LookaroundAssertion (children).
The id is a `Nat`: the external id service (`nanoid`) is modelled as a
fresh-id counter. -/
inductive Node
  | character (value : String) (quantifier : Option Quantifier)
  | group (id : Nat) (kind : GroupKind) (children : List Node)
      (quantifier : Option Quantifier)
  | choice (branches : List (List Node))
  | lookAroundAssertion (children : List Node)

/-- Modelled from the spec: the root `Pattern` of §3 — ordered body nodes plus
ordered resolved flags (source: `this.ast = { type: "regex", body, flags }`,
parse_new.ts line 17). -/
structure RegexAst where
  body : List Node
  flags : List FlagKind

/-- Result of `parse` (parse_new.ts lines 26-32 and 273-276): either the tree,
or a `RegexError` value `{ type: "error", message }`, or an uncaught runtime
`TypeError` — the source dereferences `this.prev.type` (line 173) while
`this.prev` is only ever assigned in `onGroup` (line 269), so inputs whose
first quantifier precedes any group crash; `crash` models that uncaught
exception. -/
inductive ParseResult
  | ok (ast : RegexAst)
  | error (message : String)
  | crash

/-- The external syntax-legality oracle `new RegExp(body, flags)`
(parse_new.ts line 64): `none` means the construction does not throw, and
`some msg` is the thrown error's message, surfaced verbatim. -/
def Oracle : Type := List Char → List Char → Option String

/-- An oracle that accepts every body/flags pair; used to evaluate the parser
on concrete inputs whose bodies are legal JavaScript regexes. -/
def oracleAccept : Oracle := fun _ _ => none

/-- The character set removed by JavaScript `String.prototype.trim`
(parse_new.ts line 23 trims the input). -/
def jsWhitespace (c : Char) : Bool :=
  c = ' ' || c = '\t' || c = '\n' || c = '\r' || c = '\x0b' || c = '\x0c' ||
  c = ' ' || c = ' ' || (' ' ≤ c && c ≤ ' ') ||
  c = ' ' || c = ' ' || c = ' ' || c = ' ' ||
  c = '　' || c = '﻿'

/-- JS `trim`: drop `jsWhitespace` characters from both ends. -/
def trimList (l : List Char) : List Char :=
  (((l.dropWhile jsWhitespace).reverse.dropWhile jsWhitespace)).reverse

/-- Index of the first `'/'` in a character list, if any (the manual search
loop of `validate`, parse_new.ts lines 44-49, and `indexOf` at line 36). -/
def findSlash : List Char → Option Nat
  | [] => none
  | c :: rest => if c = '/' then some 0 else (findSlash rest).map (· + 1)

/-- JS `String.prototype.indexOf("/")` (parse_new.ts line 36): first index
or `-1`. -/
def jsIndexOf (l : List Char) : Int :=
  match findSlash l with
  | none => -1
  | some n => (n : Int)

/-- The membership test `/[gimsuy]/.test(ch)` of `validate`
(parse_new.ts line 57).  Note the source set omits `d` even though
`flagDict` (lines 4-12) declares it. -/
def isFlagChar (c : Char) : Bool :=
  c = 'g' || c = 'i' || c = 'm' || c = 's' || c = 'u' || c = 'y'

/-- JS `Set.prototype.add` on the flag set (parse_new.ts line 61), with the
set represented as its insertion-ordered element list: adding an element
already present is a no-op, otherwise it is appended. -/
def setAdd (acc : List Char) (c : Char) : List Char :=
  if c ∈ acc then acc else acc ++ [c]

/-- The flag-checking loop of `validate` (parse_new.ts lines 56-62): each
character after the closing delimiter must pass `isFlagChar` (else the whole
validation fails with "Invalid regular expression flags") and is added to the
flag set. -/
def scanFlags (acc : List Char) : List Char → Except String (List Char)
  | [] => .ok acc
  | c :: rest =>
      if isFlagChar c then scanFlags (setAdd acc c) rest
      else .error "Invalid regular expression flags"

/-- `Parser.validate` (parse_new.ts lines 34-70): the first `/` must sit at
offset 0, a second `/` must follow, every character after it must be a
recognized flag letter, and finally the body and flag string are handed to
the legality oracle (`new RegExp(...)`, line 64) whose error message is
surfaced verbatim.  On success the insertion-ordered flag set is returned.
With the closing delimiter at index `end = k + 1` of `r`, the body
`slice(start + 1, end)` is `(r.drop 1).take k` and the flag text
`slice(end + 1)` is `r.drop (k + 2)`. -/
def validateV (oracle : Oracle) (r : List Char) : Except String (List Char) :=
  if jsIndexOf r ≠ 0 then .error "Invalid regular expression"
  else
    match findSlash (r.drop 1) with
    | none => .error "Invalid regular expression"
    | some k =>
        match scanFlags [] (r.drop (k + 2)) with
        | .error m => .error m
        | .ok fl =>
            match oracle ((r.drop 1).take k) (r.drop (k + 2)) with
            | some m => .error m
            | none => .ok fl

/-- The characters after the closing delimiter (the region scanned by the
flag loop of `validate`); empty when there is no closing delimiter. -/
def flagSection (r : List Char) : List Char :=
  match findSlash (r.drop 1) with
  | none => []
  | some k => r.drop (k + 2)

/-- `flagDict` (parse_new.ts lines 4-12): letter → flag name.  The source
indexes the dictionary only with letters accepted by `validate`, so the
out-of-dictionary case cannot be reached; it is modelled as `none`. -/
def flagDict : Char → Option FlagKind
  | 'd' => some .hasIndices
  | 'g' => some .global
  | 'i' => some .ignoreCase
  | 'm' => some .multiline
  | 's' => some .dotAll
  | 'u' => some .unicode
  | 'y' => some .sticky
  | _ => none

/-- The mutable fields of the `Parser` object that the body-consumption phase
touches (parse_new.ts lines 13-24): the trimmed source, the cursor index,
the root body under construction, `prev` (the last group node, referenced by
its id — `prev` is assigned only at line 269 and always to a group node),
the capture counter `groupIndex`, and the fresh-id counter standing in for
`nanoid`.  `parent` (line 18) is assigned exactly once, in `onRegex`
(line 201), to the root `ast`, so it is not part of the state: `appendChild`
always takes its root branch. -/
structure PState where
  regex : List Char
  index : Nat
  body : List Node
  prev : Option Nat
  groupIndex : Nat
  nextId : Nat

/-- `Parser.cur` (parse_new.ts lines 80-82): the character at
`index + offset`, `undefined` (here `none`) past the end. -/
def cur (s : PState) (offset : Nat) : Option Char :=
  s.regex.get? (s.index + offset)

/-- `Parser.advance` (parse_new.ts lines 72-78): refuses to move only when
the index sits exactly on the last character (`index === regex.length - 1`,
a JS number comparison, hence the `Int` cast so an empty string behaves as
in JS); otherwise adds `step` unconditionally. -/
def advance (s : PState) (step : Nat) : PState × Bool :=
  if (s.index : Int) = (s.regex.length : Int) - 1 then (s, false)
  else ({ s with index := s.index + step }, true)

/-- `eat("\\d+", "", offset)` (parse_new.ts lines 217-230 specialised to the
digit-run calls at lines 120 and 149): the maximal digit prefix of the text
at `index + offset`, or `none` when the first character is not a digit. -/
def eatDigits (s : PState) (offset : Nat) : Option (List Char) :=
  let ds := ((s.regex.drop (s.index + offset)).takeWhile Char.isDigit)
  if ds = [] then none else some ds

/-- `parseInt` on a digit run (parse_new.ts lines 127-128, 140, 156-157). -/
def digitsToNat (ds : List Char) : Nat :=
  ds.foldl (fun a c => a * 10 + (c.toNat - '0'.toNat)) 0

/-- Index of the last `'>'` in a character list, if any. -/
def lastGt (l : List Char) : Option Nat :=
  match l with
  | [] => none
  | c :: rest =>
      match lastGt rest with
      | some n => some (n + 1)
      | none => if c = '>' then some 0 else none

/-- `eat("\\?<", ">")` (parse_new.ts lines 231-238, called at line 249): the
anchored JS regex `^\?<(.*)>` applied to the text at the cursor.  `.` does
not match a newline and `(.*)` is greedy, so on success the captured name is
everything from after `?<` up to the last `>` of the newline-free run. -/
def eatName (s : PState) : Option (List Char) :=
  let sl := s.regex.drop s.index
  if sl.take 2 = ['?', '<'] then
    let pre := (sl.drop 2).takeWhile (fun c => c ≠ '\n')
    match lastGt pre with
    | some j => some (pre.take j)
    | none => none
  else none

/-- `eat("\\?:")` (parse_new.ts line 245): does the text at the cursor start
with `?:`. -/
def eatQColon (s : PState) : Bool :=
  (s.regex.drop s.index).take 2 = ['?', ':']

/-- The switch of `consumeQuantifier` (parse_new.ts lines 106-165): the
recognized quantifier together with the advanced state, or `none` when no
quantifier is produced (in which case the source never advanced).  In the
`{` arm, note that the second digit run (line 149) is read with `eat`
offset 1 — the position of `min`, not of `max` — and that the final check
(line 153) repeats the already-false `{min}` test of line 124, so the
bounded `{min,max}` arm never produces a quantifier. -/
def quantAtCursor (s : PState) : Option (Quantifier × PState) :=
  match cur s 0 with
  | some '?' => some (⟨.question, 0, .fin 1, true⟩, (advance s 1).1)
  | some '*' => some (⟨.star, 0, .inf, true⟩, (advance s 1).1)
  | some '+' => some (⟨.plus, 1, .inf, true⟩, (advance s 1).1)
  | some '{' =>
      match eatDigits s 1 with
      | none => none
      | some ds =>
          let L := ds.length
          if cur s (L + 1) = some '}' then
            some (⟨.custom, digitsToNat ds, .fin (digitsToNat ds), true⟩,
              (advance s (L + 2)).1)
          else if cur s (L + 1) = some ',' ∧ cur s (L + 2) = some '}' then
            some (⟨.custom, digitsToNat ds, .inf, true⟩, (advance s (L + 3)).1)
          else
            match eatDigits s 1 with
            | none => none
            | some ms =>
                if cur s (L + 1) = some '}' then
                  some (⟨.custom, digitsToNat ds, .fin (digitsToNat ms), true⟩,
                    (advance s (L + ms.length + 3)).1)
                else none
  | _ => none

/-- Attach a quantifier to the group node with the given id (the mutation
`this.prev.quantifier = quantifier`, parse_new.ts line 174; `prev` always
references a group already appended to the root body). -/
def setQuantifier (gid : Nat) (q : Quantifier) (n : Node) : Node :=
  match n with
  | .group id k ch qu =>
      if id = gid then .group id k ch (some q) else .group id k ch qu
  | other => other

/-- `Parser.consumeQuantifier` (parse_new.ts lines 104-181): recognize a
quantifier at the cursor; if one was produced and the next character is `?`,
make it lazy and advance past the `?`; then attach it to `prev`.  The source
reads `this.prev.type` (line 173) — when `prev` is undefined (no group has
been parsed yet) this is an uncaught TypeError, modelled as `none`; when
`prev` is defined it is a group node (assigned only at line 269), so the
`character || group` test succeeds and the quantifier is attached. -/
def consumeQuantifier (s : PState) : Option PState :=
  match quantAtCursor s with
  | none => some s
  | some (q, s1) =>
      match
        (if cur s1 0 = some '?' then
          ({ q with greedy := false }, (advance s1 1).1)
        else (q, s1) : Quantifier × PState)
      with
      | (q2, s2) =>
          match s2 with
          | ⟨regex, index, body, prev, gi, nid⟩ =>
              match prev with
              | none => none
              | some gid =>
                  some ⟨regex, index, body.map (setQuantifier gid q2),
                    some gid, gi, nid⟩

/-- `Parser.appendChild` (parse_new.ts lines 183-198): dispatches on
`this.parent.type`; since `parent` is assigned only in `onRegex` (line 201),
to the root, the dispatch always pushes onto the root body. -/
def appendChild (s : PState) (n : Node) : PState :=
  { s with body := s.body ++ [n] }

mutual

/-- `Parser.consume(endPoint)` (parse_new.ts lines 84-102): a do-while loop —
return at the end point, recognize quantifiers at `{ ? * +`, descend into
groups at `(`, skip anything else (no Character node is ever constructed),
then `advance()` and loop until it refuses.  `fuel` bounds the iteration
count (the loop terminates because every iteration that continues advances
the cursor); exhausted fuel yields `none`, which never happens for the
concrete runs below. -/
def consumeAux : Nat → Char → PState → Option PState
  | 0, _, _ => none
  | Nat.succ f, ep, s =>
      let step : Option (PState × Bool) :=
        match cur s 0 with
        | some c =>
            if c = ep then some (s, true)
            else if c = '{' || c = '?' || c = '*' || c = '+' then
              (consumeQuantifier s).map (fun s' => (s', false))
            else if c = '(' then
              (onGroup f s).map (fun s' => (s', false))
            else some (s, false)
        | none => some (s, false)
      match step with
      | none => none
      | some (s', true) => some s'
      | some (s', false) =>
          match advance s' 1 with
          | (s'', true) => consumeAux f ep s''
          | (s'', false) => some s''

/-- `Parser.onGroup` (parse_new.ts lines 241-270): advance past `(`; classify
via lookahead — `?:` gives a non-capturing group (advance 2), a nonempty
`?<name>` match gives a named group (advance past the whole span), anything
else a capturing group numbered by `groupIndex++` (the stringified counter;
an empty captured name is falsy in JS and also falls through to this arm).
Build the node with a fresh id and a null quantifier, append it to the
current parent (the root — `this.parent` is never reassigned), consume the
body up to `)`, and record the node as `prev`. -/
def onGroup : Nat → PState → Option PState
  | 0, _ => none
  | Nat.succ f, s =>
      match
        (match (advance s 1).1 with
        | s1 =>
          if eatQColon s1 then
            (GroupKind.nonCapturing, (advance s1 2).1, s1.groupIndex)
          else
            match eatName s1 with
            | some nm =>
                if nm.length ≠ 0 then
                  (GroupKind.namedCapturing (String.mk nm),
                    (advance s1 (nm.length + 3)).1, s1.groupIndex)
                else
                  (GroupKind.capturing (Nat.repr s1.groupIndex), s1,
                    s1.groupIndex + 1)
            | none =>
                (GroupKind.capturing (Nat.repr s1.groupIndex), s1,
                  s1.groupIndex + 1) : GroupKind × PState × Nat)
      with
      | (k, s2, gi) =>
          match s2 with
          | ⟨regex, index, body, prev, _, nid⟩ =>
              match consumeAux f ')'
                (appendChild ⟨regex, index, body, prev, gi, nid + 1⟩
                  (Node.group nid k [] none)) with
              | none => none
              | some s4 => some { s4 with prev := some nid }

end

/-- The initial parser state (parse_new.ts lines 14-24) for a trimmed
source. -/
def initState (r : List Char) : PState :=
  { regex := r, index := 0, body := [], prev := none, groupIndex := 1,
    nextId := 0 }

/-- `onRegex` minus `onFlags` (parse_new.ts lines 200-209): set the parent to
the root, advance past the opening `/` (ignoring whether the advance
succeeded, as the source does) and consume the body up to the closing `/`.
The fuel is generous: the loop advances at every continuing iteration. -/
def runBody (r : List Char) : Option PState :=
  consumeAux ((r.length + 2) * (r.length + 2)) '/'
    ((advance (initState r) 1).1)

/-- `parse` on an already-trimmed character list: `Parser.parse`
(parse_new.ts lines 26-32) — validate, then build the body and materialize
one flag node per letter of the insertion-ordered flag set (`onFlags`,
lines 211-215). -/
def parseTrimmed (oracle : Oracle) (r : List Char) : ParseResult :=
  match validateV oracle r with
  | .error m => .error m
  | .ok fl =>
      match runBody r with
      | none => .crash
      | some st => .ok { body := st.body, flags := fl.filterMap flagDict }

/-- The exported `parse` (parse_new.ts lines 273-276) on a character list:
the constructor trims the input (line 23) before anything else. -/
def parseModelL (oracle : Oracle) (input : List Char) : ParseResult :=
  parseTrimmed oracle (trimList input)

/-- The exported `parse` on a string. -/
def parseModel (oracle : Oracle) (input : String) : ParseResult :=
  parseModelL oracle input.data

/-! ### Helper lemmas about the flag set -/

theorem setAdd_mem (acc : List Char) (c x : Char) :
    x ∈ setAdd acc c ↔ x ∈ acc ∨ x = c := by
  unfold setAdd
  by_cases h : c ∈ acc
  · rw [if_pos h]
    constructor
    · exact fun hx => Or.inl hx
    · rintro (hx | rfl)
      · exact hx
      · exact h
  · rw [if_neg h]
    simp [List.mem_append]

theorem setAdd_nodup (acc : List Char) (c : Char) (h : acc.Nodup) :
    (setAdd acc c).Nodup := by
  unfold setAdd
  by_cases hc : c ∈ acc
  · rwa [if_pos hc]
  · rw [if_neg hc, ← List.concat_eq_append]
    exact List.Nodup.concat hc h

theorem setAdd_append_sublist (acc : List Char) (c : Char) (rest : List Char) :
    (setAdd acc c ++ rest).Sublist (acc ++ c :: rest) := by
  unfold setAdd
  by_cases hc : c ∈ acc
  · rw [if_pos hc]
    exact List.Sublist.append_left (List.sublist_cons_self c rest) acc
  · rw [if_neg hc, List.append_assoc, List.singleton_append]

theorem scanFlags_ok (l : List Char) :
    ∀ acc fl, scanFlags acc l = Except.ok fl →
      (acc.Nodup → fl.Nodup) ∧ fl.Sublist (acc ++ l) ∧
        (∀ c, c ∈ fl ↔ c ∈ acc ∨ c ∈ l) := by
  induction l with
  | nil =>
      intro acc fl h
      simp only [scanFlags, Except.ok.injEq] at h
      subst h
      exact ⟨fun hn => hn, by simp, by simp⟩
  | cons c rest ih =>
      intro acc fl h
      simp only [scanFlags] at h
      by_cases hc : isFlagChar c
      · rw [if_pos hc] at h
        obtain ⟨h1, h2, h3⟩ := ih (setAdd acc c) fl h
        refine ⟨fun hn => h1 (setAdd_nodup acc c hn),
          h2.trans (setAdd_append_sublist acc c rest), fun x => ?_⟩
        rw [h3 x, setAdd_mem]
        simp only [List.mem_cons]
        tauto
      · rw [if_neg hc] at h
        exact absurd h (by simp)

theorem scanFlags_error (l : List Char) :
    ∀ acc m, scanFlags acc l = Except.error m →
      m = "Invalid regular expression flags" := by
  induction l with
  | nil =>
      intro acc m h
      simp only [scanFlags] at h
      exact absurd h (by simp)
  | cons c rest ih =>
      intro acc m h
      simp only [scanFlags] at h
      by_cases hc : isFlagChar c
      · rw [if_pos hc] at h
        exact ih _ _ h
      · rw [if_neg hc] at h
        injection h with h'
        exact h'.symm

theorem validateV_ok (oracle : Oracle) (r : List Char) (fl : List Char)
    (hv : validateV oracle r = Except.ok fl) :
    scanFlags [] (flagSection r) = Except.ok fl := by
  unfold validateV at hv
  split at hv
  · exact absurd hv (by simp)
  · split at hv
    · exact absurd hv (by simp)
    · rename_i k heq
      unfold flagSection
      rw [heq]
      split at hv
      · exact absurd hv (by simp)
      · rename_i fl' heq2
        split at hv
        · exact absurd hv (by simp)
        · injection hv with hv'
          rw [← hv']
          exact heq2

theorem validateV_error_shapes (oracle : Oracle) (r : List Char) (m : String)
    (h : validateV oracle r = Except.error m) :
    m = "Invalid regular expression" ∨
      m = "Invalid regular expression flags" ∨
      ∃ b f, oracle b f = some m := by
  unfold validateV at h
  split at h
  · injection h with h'
    exact Or.inl h'.symm
  · split at h
    · injection h with h'
      exact Or.inl h'.symm
    · rename_i k heq
      split at h
      · rename_i m' heq2
        injection h with h'
        exact Or.inr (Or.inl (h' ▸ scanFlags_error _ [] m' heq2))
      · rename_i fl heq2
        split at h
        · rename_i m' heq3
          injection h with h'
          exact Or.inr (Or.inr ⟨_, _, by rw [heq3, h']⟩)
        · exact absurd h (by simp)

/-! ### Helper lemmas about delimiter validation -/

theorem findSlash_none_iff (l : List Char) : findSlash l = none ↔ '/' ∉ l := by
  induction l with
  | nil => simp [findSlash]
  | cons c t ih =>
      by_cases hc : c = '/'
      · subst hc
        simp [findSlash]
      · have hf : findSlash (c :: t) = (findSlash t).map (· + 1) := by
          simp [findSlash, hc]
        rw [hf, Option.map_eq_none', ih, List.mem_cons]
        constructor
        · intro hnt hor
          rcases hor with h1 | h2
          · exact hc h1.symm
          · exact hnt h2
        · intro hn h2
          exact hn (Or.inr h2)

theorem jsIndexOf_ne_zero (r : List Char) (h : r.head? ≠ some '/') :
    jsIndexOf r ≠ 0 := by
  cases r with
  | nil => simp [jsIndexOf, findSlash]
  | cons c t =>
      have hc : c ≠ '/' := by
        intro he
        exact h (by rw [he]; rfl)
      have hf : findSlash (c :: t) = (findSlash t).map (· + 1) := by
        simp [findSlash, hc]
      unfold jsIndexOf
      rw [hf]
      cases h2 : findSlash t with
      | none => simp
      | some n =>
          simp only [Option.map_some']
          omega

theorem parseTrimmed_delimiter_error (oracle : Oracle) (r : List Char)
    (h : r.head? ≠ some '/' ∨ '/' ∉ r.drop 1) :
    parseTrimmed oracle r = ParseResult.error "Invalid regular expression" := by
  unfold parseTrimmed validateV
  rcases h with hA | hB
  · rw [if_pos (jsIndexOf_ne_zero r hA)]
  · by_cases hH : r.head? = some '/'
    · cases r with
      | nil => simp at hH
      | cons a t =>
          have ha : a = '/' := by simpa using hH
          subst ha
          have h0 : jsIndexOf ('/' :: t) = 0 := by simp [jsIndexOf, findSlash]
          rw [if_neg (not_not_intro h0)]
          have hn : findSlash (('/' :: t).drop 1) = none := by
            rw [findSlash_none_iff]
            simpa using hB
          rw [hn]
    · rw [if_pos (jsIndexOf_ne_zero r hH)]

theorem parseTrimmed_error_shapes (oracle : Oracle) (r : List Char)
    (msg : String) (h : parseTrimmed oracle r = ParseResult.error msg) :
    msg = "Invalid regular expression" ∨
      msg = "Invalid regular expression flags" ∨
      ∃ b f, oracle b f = some msg := by
  unfold parseTrimmed at h
  split at h
  · rename_i m hv
    injection h with h'
    exact h' ▸ validateV_error_shapes oracle r m hv
  · rename_i fl hv
    split at h
    · exact absurd h (by simp)
    · exact absurd h (by simp)

/-! ### Helper lemmas about trimming -/

theorem trimList_pad (pre s post : List Char)
    (hpre : ∀ c ∈ pre, jsWhitespace c = true)
    (hpost : ∀ c ∈ post, jsWhitespace c = true) :
    trimList (pre ++ s ++ post) = trimList s := by
  unfold trimList
  rw [List.append_assoc, List.dropWhile_append_of_pos hpre,
    List.dropWhile_append]
  by_cases h : s.dropWhile jsWhitespace = []
  · rw [if_pos (by rw [h]; rfl)]
    rw [List.dropWhile_eq_nil_iff.mpr hpost, h]
  · rw [if_neg (by simpa using h), List.reverse_append,
      List.dropWhile_append_of_pos
        (fun c hc => hpost c (List.mem_reverse.mp hc))]

/-! ### The claims -/

set_option maxHeartbeats 16000000 in
/-- C1: the spec claims `/ab+/gi` parses into a Pattern whose body is the two
Character nodes `a` and `b` (the latter quantified by `+`), every literal
unit being materialized as a Character node.  The code does neither: the
`default` arm of `consume` (parse_new.ts line 98) skips ordinary characters
without building any node, so when `consumeQuantifier` reaches the `+` it
dereferences `this.prev.type` (line 173) with `prev` still undefined and the
parse dies with an uncaught TypeError instead of returning a Pattern. -/
theorem c1_characters_not_materialized :
    parseModel oracleAccept "/ab+/gi" = ParseResult.crash := by rfl

set_option maxHeartbeats 16000000 in
/-- C2: the spec claims a group opened inside another group is appended to
the enclosing group's child sequence (nested groups nest).  The code never
reassigns `this.parent` (its only assignment is `onRegex`, line 201), so
`appendChild` always pushes onto the root body: parsing `/(a(b))/` yields
TWO sibling groups at the top level, the outer one with an empty child
sequence, instead of a nested tree. -/
theorem c2_inner_group_not_nested :
    parseModel oracleAccept "/(a(b))/" = ParseResult.ok
      { body := [Node.group 0 (GroupKind.capturing "1") [] none,
                 Node.group 1 (GroupKind.capturing "2") [] none],
        flags := [] } := by rfl

set_option maxHeartbeats 16000000 in
/-- C3: the spec claims `(a){2,5}` yields the quantifier
`custom, min 2, max 5, greedy`.  In the code the bounded-max arm is dead:
line 149 reads the second digit run at offset 1 (the position of `min`, not
of `max`) and line 153 repeats the already-false check of line 124, so
`{2,5}` produces NO quantifier at all (first conjunct), while the `{3}`,
`{3,}` and `*?` cases behave as the spec says (remaining conjuncts). -/
theorem c3_bounded_quantifier_dead :
    parseModel oracleAccept "/(a)\x7b2,5\x7d/" = ParseResult.ok
      { body := [Node.group 0 (GroupKind.capturing "1") [] none],
        flags := [] } ∧
    parseModel oracleAccept "/(a)\x7b3\x7d/" = ParseResult.ok
      { body := [Node.group 0 (GroupKind.capturing "1") []
          (some ⟨QuantKind.custom, 3, QuantMax.fin 3, true⟩)],
        flags := [] } ∧
    parseModel oracleAccept "/(a)\x7b3,\x7d/" = ParseResult.ok
      { body := [Node.group 0 (GroupKind.capturing "1") []
          (some ⟨QuantKind.custom, 3, QuantMax.inf, true⟩)],
        flags := [] } ∧
    parseModel oracleAccept "/(a)*?/" = ParseResult.ok
      { body := [Node.group 0 (GroupKind.capturing "1") []
          (some ⟨QuantKind.star, 0, QuantMax.inf, false⟩)],
        flags := [] } := ⟨rfl, rfl, rfl, rfl⟩

set_option maxHeartbeats 16000000 in
/-- C4: the spec claims that after validation succeeds the body parse never
raises an error, a quantifier with no preceding sibling being silently
dropped.  The malformed-brace half is true (first conjunct: in `/a{/` the
brace is passed over and the parse returns an empty body), but the
no-preceding-sibling half is false: `/a+/` passes validation (the body `a+`
is a legal regex) yet `consumeQuantifier` dereferences `this.prev.type`
(line 173) with `prev` undefined, an uncaught TypeError (second
conjunct). -/
theorem c4_crash_on_unattached_quantifier :
    parseModel oracleAccept "/a\x7b/" = ParseResult.ok { body := [], flags := [] } ∧
    parseModel oracleAccept "/a+/" = ParseResult.crash := ⟨rfl, rfl⟩

set_option maxHeartbeats 16000000 in
/-- C5: the spec claims flag validation recognizes exactly the seven letters
d g i m s u y.  The validation regex `[gimsuy]` (line 57) omits `d` even
though `flagDict` (lines 4-12) declares it, so `/a/d` is rejected with
"Invalid regular expression flags" (first conjunct, for every oracle — the
oracle is never consulted) while the six letters g i m s u y all pass
(second conjunct). -/
theorem c5_flag_d_rejected :
    parseModel oracleAccept "/a/d" =
      ParseResult.error "Invalid regular expression flags" ∧
    parseModel oracleAccept "/a/gimsuy" = ParseResult.ok
      { body := [],
        flags := [FlagKind.global, FlagKind.ignoreCase, FlagKind.multiline,
          FlagKind.dotAll, FlagKind.unicode, FlagKind.sticky] } := ⟨rfl, rfl⟩

set_option maxHeartbeats 16000000 in
/-- C6: the spec claims `?<name>` captures exactly the text up to the
matching `>`, so `/(?<a>x)(?<b>y)/` gives two groups named `a` and `b`.
The lookahead `^\?<(.*)>` (line 249) is greedy, so the capture runs to the
LAST `>` of the input: the parse returns a single group named
`a>x)(?<b`. -/
theorem c6_greedy_name_capture :
    parseModel oracleAccept "/(?<a>x)(?<b>y)/" = ParseResult.ok
      { body := [Node.group 0 (GroupKind.namedCapturing "a>x)(?<b") [] none],
        flags := [] } := by rfl

set_option maxHeartbeats 16000000 in
/-- C7: capture numbering — `/(a)(b(c))/` assigns the numbers 1, 2, 3 to the
three capturing groups in opening-parenthesis order (first conjunct; note
the groups end up flat in the root body, cf. C2, but the numbers are as the
claim states), and neither `(?:...)` nor `(?<name>...)` consumes a capture
slot: in `/(?:x)(?<n>y)(z)/` the lone capturing group is numbered 1 (second
conjunct), and in `/((?:a)(b))/` the capturing groups around an interleaved
non-capturing one are numbered 1 and 2 (third conjunct). -/
theorem c7_capture_numbering :
    parseModel oracleAccept "/(a)(b(c))/" = ParseResult.ok
      { body := [Node.group 0 (GroupKind.capturing "1") [] none,
                 Node.group 1 (GroupKind.capturing "2") [] none,
                 Node.group 2 (GroupKind.capturing "3") [] none],
        flags := [] } ∧
    parseModel oracleAccept "/(?:x)(?<n>y)(z)/" = ParseResult.ok
      { body := [Node.group 0 GroupKind.nonCapturing [] none,
                 Node.group 1 (GroupKind.namedCapturing "n") [] none,
                 Node.group 2 (GroupKind.capturing "1") [] none],
        flags := [] } ∧
    parseModel oracleAccept "/((?:a)(b))/" = ParseResult.ok
      { body := [Node.group 0 (GroupKind.capturing "1") [] none,
                 Node.group 1 GroupKind.nonCapturing [] none,
                 Node.group 2 (GroupKind.capturing "2") [] none],
        flags := [] } := ⟨rfl, rfl, rfl⟩

set_option maxHeartbeats 16000000 in
/-- C8 counterexample: the claim quantifies over every literal accepted by
validation, but `/a+/g` is accepted by validation (body `a+`, flag `g`) and
no Pattern is returned at all — the body parse dies on the undefined `prev`
(cf. C1/C4), so the claim as stated is false. -/
theorem c8_validated_but_no_pattern :
    parseModel oracleAccept "/a+/g" = ParseResult.crash := by rfl

/-- C8 (amended): for every literal accepted by validation whose body parse
completes, the returned Pattern's flag list is the flag-set image of the
letters after the closing delimiter: one `Flag` node per distinct letter
(`fl.Nodup` plus the membership equivalence), in encounter order (`fl` is a
sublist of the flag section, hence preserves its order, and the set
deduplicates by keeping the first occurrence). -/
theorem c8_one_flag_per_distinct_letter (oracle : Oracle) (input : List Char)
    (fl : List Char) (st : PState)
    (hv : validateV oracle (trimList input) = Except.ok fl)
    (hb : runBody (trimList input) = some st) :
    parseModelL oracle input =
      ParseResult.ok { body := st.body, flags := fl.filterMap flagDict } ∧
    fl.Nodup ∧
    fl.Sublist (flagSection (trimList input)) ∧
    (∀ c : Char, c ∈ fl ↔ c ∈ flagSection (trimList input)) := by
  have hscan := validateV_ok oracle (trimList input) fl hv
  obtain ⟨h1, h2, h3⟩ := scanFlags_ok (flagSection (trimList input)) [] fl hscan
  refine ⟨?_, h1 List.nodup_nil, by simpa using h2, fun c => by simpa using h3 c⟩
  unfold parseModelL parseTrimmed
  rw [hv, hb]

set_option maxHeartbeats 16000000 in
/-- Witness for C8: `/(a)/gig` is accepted by validation with flag set
`[g, i]` (the duplicate `g` deduplicated), its body parse completes, and the
parse returns exactly one Flag node per distinct letter in encounter
order. -/
theorem c8_one_flag_per_distinct_letter_witness :
    parseModelL oracleAccept ("/(a)/gig".data) = ParseResult.ok
      { body := [Node.group 0 (GroupKind.capturing "1") [] none],
        flags := [FlagKind.global, FlagKind.ignoreCase] } ∧
    List.Nodup ['g', 'i'] := by
  have h := c8_one_flag_per_distinct_letter oracleAccept ("/(a)/gig".data)
    ['g', 'i']
    { regex := "/(a)/gig".data, index := 4,
      body := [Node.group 0 (GroupKind.capturing "1") [] none],
      prev := some 0, groupIndex := 2, nextId := 1 }
    (by rfl) (by rfl)
  exact ⟨h.1, h.2.1⟩

/-- C9: first conjunct — whenever the (trimmed) literal does not start with
`/` or has no second `/` after it, parse fails with exactly
"Invalid regular expression"; second conjunct — every failure message is one
of the three shapes: the two fixed strings or a message returned verbatim by
the legality oracle.  (No partial tree accompanies a failure: `ParseResult`
separates `ok` from `error` by construction.) -/
theorem c9_failure_contract :
    (∀ (oracle : Oracle) (input : List Char),
        ((trimList input).head? ≠ some '/' ∨ '/' ∉ (trimList input).drop 1) →
        parseModelL oracle input = ParseResult.error "Invalid regular expression") ∧
    (∀ (oracle : Oracle) (input : List Char) (msg : String),
        parseModelL oracle input = ParseResult.error msg →
        msg = "Invalid regular expression" ∨
          msg = "Invalid regular expression flags" ∨
          ∃ b f, oracle b f = some msg) :=
  ⟨fun oracle input h => parseTrimmed_delimiter_error oracle (trimList input) h,
   fun oracle input msg h => parseTrimmed_error_shapes oracle (trimList input) msg h⟩

/-- Witness for C9 at the spec's own example `ab/` (no leading slash). -/
theorem c9_failure_contract_witness :
    parseModelL oracleAccept ("ab/".data) =
      ParseResult.error "Invalid regular expression" :=
  c9_failure_contract.1 oracleAccept ("ab/".data) (by decide)

/-- C10: the constructor trims the input (parse_new.ts line 23) before any
validation or parsing, so adding leading or trailing JS whitespace never
changes the result of `parse` (in this model `nanoid` is a deterministic
counter, so the results are equal outright, which subsumes "equal apart from
generated ids"). -/
theorem c10_whitespace_padding (oracle : Oracle) (pre s post : List Char)
    (hpre : ∀ c ∈ pre, jsWhitespace c = true)
    (hpost : ∀ c ∈ post, jsWhitespace c = true) :
    parseModelL oracle (pre ++ s ++ post) = parseModelL oracle s := by
  unfold parseModelL
  rw [trimList_pad pre s post hpre hpost]

/-- Witness for C10: a space before and a space plus tab after `/(a)/`. -/
theorem c10_whitespace_padding_witness :
    parseModelL oracleAccept ([' '] ++ "/(a)/".data ++ [' ', '\t']) =
      parseModelL oracleAccept ("/(a)/".data) :=
  c10_whitespace_padding oracleAccept [' '] ("/(a)/".data) [' ', '\t']
    (by decide) (by decide)

end RegexVis
